import Mathlib

/-
Verification of the coordination core of the configured-etcd3-client
repository: the bounded-retry lock acquisition loop (acquireLock), the
best-effort releaseLock, and the lock-guarded memoization protocol
(memoize), as implemented in src/unnamed/part_000 (the variant of
src/index.js that carries the maxExecutionTime parameter and
executeUpToTime helper).

The etcd Coordinator is modelled as an association list from string keys
to JSON-round-tripped JavaScript values; the client operations become pure
functions over that store.  External nondeterminism (lock acquisition
outcomes, wall-clock durations, the user-supplied computation, writes made
by concurrent callers while this caller waits for the lock) is supplied by
explicit environment records, so each code path of the source is a branch
of the corresponding Lean function.
-/

set_option maxHeartbeats 1000000

namespace ConfiguredEtcd3Client

/-- JavaScript values as they survive the JSON.stringify / JSON.parse round
trip that put and get perform.  Objects and arrays are opaque to the
coordination logic, so they are represented by an opaque tag. -/
inductive JsValue where
  | vNull
  | vBool (b : Bool)
  | vNum (n : Int)
  | vStr (s : String)
  | vObj (tag : Nat)
  deriving DecidableEq, Repr

/-- JavaScript truthiness, as used by the if (value) tests in memoize and
get.  null, false, 0 and the empty string are falsy; NaN has no JSON
representation and cannot be stored, so it does not appear. -/
def jsTruthy : JsValue → Bool
  | .vNull => false
  | .vBool b => b
  | .vNum n => n != 0
  | .vStr s => s != ""
  | .vObj _ => true

/-- The result of an if (value) test on the result of a get: some v when a
truthy value v is present, none when the key is absent or the value falsy. -/
def truthyVal (o : Option JsValue) : Option JsValue :=
  match o with
  | some v => if jsTruthy v then some v else none
  | none => none

/-- Errors observable by the client code.  lockFailed is the
EtcdLockFailedError raised by the etcd3 lock primitive on contention;
lockTimeout is the Error thrown by acquireLock when maxWait elapses
(carrying the measured waitTime in ms); infra covers every other
Coordinator failure; fnTimeout is the Function timed out rejection built
by executeUpToTime; fnFailure is an error thrown by the user-supplied
computation. -/
inductive EtcdError where
  | lockFailed
  | lockTimeout (waitTimeMs : Nat)
  | infra (code : String)
  | fnTimeout
  | fnFailure (code : String)
  deriving DecidableEq, Repr

/-- One stored key/value pair, with the lease ttl (seconds) the write was
made with; ttl = 0 records a plain put without a lease. -/
structure Entry where
  key : String
  value : JsValue
  ttl : Nat
  deriving DecidableEq, Repr

/-- The Coordinator's value store, as an association list (most recent
write first). -/
abbrev Store := List Entry

def storeGetEntry (s : Store) (k : String) : Option Entry :=
  s.find? (fun e => e.key == k)

def storeGet (s : Store) (k : String) : Option JsValue :=
  (storeGetEntry s k).map Entry.value

def storeDel (s : Store) (k : String) : Store :=
  s.filter (fun e => e.key != k)

def storePut (s : Store) (k : String) (v : JsValue) (ttl : Nat) : Store :=
  { key := k, value := v, ttl := ttl } :: storeDel s k

/-- Success path of Etcd3Client.get (part_000 lines 70 to 96) for a plain,
non-recursive key: the raw etcd string is JSON.parsed, and an absent key
(etcd returns null, which is falsy) comes back as none. -/
def clientGet (s : Store) (k : String) : Option JsValue :=
  storeGet s k

/-- Success path of Etcd3Client.put (part_000 lines 101 to 135): the value
is JSON.stringified and written, under a lease of ttl seconds when ttl is
truthy (nonzero). -/
def clientPut (s : Store) (k : String) (v : JsValue) (ttl : Nat) : Store :=
  storePut s k v ttl

/-- Success path of Etcd3Client.del (part_000 lines 137 to 158). -/
def clientDel (s : Store) (k : String) : Store :=
  storeDel s k

/-- executeUpToTime (part_000 lines 28 to 34).  When maxTimeMs is zero
(the JS test is maxTimeMs less-or-equal 0, and callers only produce
nonnegative values) func runs unraced; otherwise func is raced against a
timer.  deadlineFired records whether the timer won the race, in which
case the result is the Function timed out rejection; otherwise the result
of the raced invocation (firstRun) is returned. -/
def executeUpToTime (maxTimeMs : Nat) (deadlineFired : Bool)
    (firstRun : Except EtcdError JsValue) : Except EtcdError JsValue :=
  if maxTimeMs = 0 then firstRun
  else if deadlineFired then .error .fnTimeout
  else firstRun

/-- releaseLock (part_000 lines 202 to 214): the underlying lock.release
call is awaited inside a try/catch whose catch block eats the error, so
nothing is ever rethrown.  The function returns the error surfaced to
releaseLock's caller (always none), given the outcome of the underlying
release call. -/
def releaseLock (underlying : Except EtcdError Unit) : Option EtcdError :=
  match underlying with
  | .ok _ => none
  | .error _ => none

/-- Environment of external nondeterminism consumed by one memoize call:
the outcome of the acquireLock call (abstracted from the loop verified
separately below), the store as left by concurrent callers at the moment
the post-lock re-read happens (a function of the store seen at the
pre-lock read), the outcome of the n-th invocation of the user-supplied
computation, the outcome of the put, the outcome of the underlying lock
release, and whether the executeUpToTime deadline fired before the raced
invocation completed. -/
structure MemoEnv where
  lockOutcome : Except EtcdError Unit
  storeAfterLock : Store → Store
  funcOutcome : Nat → Except EtcdError JsValue
  putOutcome : Except EtcdError Unit
  releaseOutcome : Except EtcdError Unit
  deadlineFired : Bool

/-- Observable outcome of one memoize call: the store it leaves behind,
the value returned or error thrown, the finish status emitted for the
memoize callInfo, how many times the user computation was invoked, how
many times put was attempted, the key/timeout/maxWait passed to
acquireLock (none when no acquisition was attempted), whether the lock was
acquired, and the result of each releaseLock call made in the finally
block. -/
structure MemoTrace where
  finalStore : Store
  result : Except EtcdError JsValue
  status : String
  funcCalls : Nat
  putCalls : Nat
  lockRequested : Option (String × Nat × Nat)
  lockAcquired : Bool
  releaseResults : List (Option EtcdError)
  deriving Repr

/-- memoize (part_000 lines 221 to 274), with the source's control flow
made explicit branch by branch: pre-lock read of valueKey; on a truthy
value return it with status val-prelock; otherwise acquire lockKey (an
acquisition failure is rethrown, status error); re-read valueKey and on a
truthy value return it with status val-postlock; otherwise run
executeUpToTime(func, maxExecutionTime * 1000) (invocation 0), discard its
value, run func() again (invocation 1), keep that value; a failure of
either invocation sets fnError and rethrows with status fn-error; then if
ttl is not 0 put the value under valueKey with that ttl (a put failure
rethrows with status error); status val-eval.  The finally block calls
releaseLock exactly when the lock was acquired. -/
def memoize (env : MemoEnv) (s : Store) (key : String) (ttl : Nat)
    (timeout maxWait maxExecutionTime : Nat) : MemoTrace :=
  let valueKey := key ++ "-value"
  let lockKey := key ++ "-lock"
  match truthyVal (clientGet s valueKey) with
  | some v =>
      { finalStore := s, result := .ok v, status := "val-prelock",
        funcCalls := 0, putCalls := 0, lockRequested := none,
        lockAcquired := false, releaseResults := [] }
  | none =>
      match env.lockOutcome with
      | .error e =>
          { finalStore := s, result := .error e, status := "error",
            funcCalls := 0, putCalls := 0,
            lockRequested := some (lockKey, timeout, maxWait),
            lockAcquired := false, releaseResults := [] }
      | .ok _ =>
          let s1 := env.storeAfterLock s
          let rel := [releaseLock env.releaseOutcome]
          match truthyVal (clientGet s1 valueKey) with
          | some v =>
              { finalStore := s1, result := .ok v, status := "val-postlock",
                funcCalls := 0, putCalls := 0,
                lockRequested := some (lockKey, timeout, maxWait),
                lockAcquired := true, releaseResults := rel }
          | none =>
              match executeUpToTime (maxExecutionTime * 1000) env.deadlineFired
                  (env.funcOutcome 0) with
              | .error e =>
                  { finalStore := s1, result := .error e, status := "fn-error",
                    funcCalls := 1, putCalls := 0,
                    lockRequested := some (lockKey, timeout, maxWait),
                    lockAcquired := true, releaseResults := rel }
              | .ok _ =>
                  match env.funcOutcome 1 with
                  | .error e =>
                      { finalStore := s1, result := .error e, status := "fn-error",
                        funcCalls := 2, putCalls := 0,
                        lockRequested := some (lockKey, timeout, maxWait),
                        lockAcquired := true, releaseResults := rel }
                  | .ok v =>
                      if ttl ≠ 0 then
                        match env.putOutcome with
                        | .ok _ =>
                            { finalStore := clientPut s1 valueKey v ttl,
                              result := .ok v, status := "val-eval",
                              funcCalls := 2, putCalls := 1,
                              lockRequested := some (lockKey, timeout, maxWait),
                              lockAcquired := true, releaseResults := rel }
                        | .error e =>
                            { finalStore := s1, result := .error e,
                              status := "error",
                              funcCalls := 2, putCalls := 1,
                              lockRequested := some (lockKey, timeout, maxWait),
                              lockAcquired := true, releaseResults := rel }
                      else
                        { finalStore := s1, result := .ok v, status := "val-eval",
                          funcCalls := 2, putCalls := 0,
                          lockRequested := some (lockKey, timeout, maxWait),
                          lockAcquired := true, releaseResults := rel }

/-- The default ttl of memoize, from its parameter list
(ttl = 60 * 5 seconds). -/
def memoizeDefaultTtl : Nat := 60 * 5

/-- memoize with its JS default arguments: ttl = 60 * 5, timeout = 10,
maxWait = 30, maxExecutionTime = 0. -/
def memoizeDefaults (env : MemoEnv) (s : Store) (key : String) : MemoTrace :=
  memoize env s key (60 * 5) 10 30 0

/-- Modelled from the spec: clearMemoizedValue is exercised by
tests/test_memoize.js but its definition is not among the source files
under src; per the spec it deletes valueKey (key + "-value"), forcing the
next memoize call to recompute. -/
def clearMemoizedValue (s : Store) (key : String) : Store :=
  clientDel s (key ++ "-value")

deriving instance DecidableEq for Except

/-- Outcome of one lock.acquire() call against the Coordinator: success,
contention (the EtcdLockFailedError case, the only retried one), or any
other failure carrying its error code. -/
inductive AcqOutcome where
  | success
  | contention
  | failure (code : String)
  deriving DecidableEq, Repr

/-- External nondeterminism consumed by one acquireLock call: the outcome
of the n-th acquire attempt (attempts are numbered from 1, matching the
attempt counter of the source), and the wall-clock milliseconds that
attempt's RPC consumed. -/
structure AcqEnv where
  outcome : Nat → AcqOutcome
  duration : Nat → Nat

/-- Observable outcome of one acquireLock call: ok waitTime (ms) when the
lock was acquired, or the thrown error; the number of acquire attempts
issued; the backoff sleeps performed, in order; and the finish status
emitted (acq, err or timeout). -/
structure AcqTrace where
  result : Except EtcdError Nat
  attempts : Nat
  delays : List Nat
  status : String
  deriving DecidableEq, Repr

/-- The retry loop of acquireLock (part_000 lines 174 to 199).  elapsed is
Date.now() - startTime in ms; the loop runs while elapsed < maxWaitMs,
increments the attempt counter, issues one acquire; on success it returns
the lock (status acq) with the measured waitTime; on a non-contention
error it rethrows at once (status err); on contention it sleeps
250 * attempt ms and loops; when the condition fails it throws the
Timed-out-waiting-for-lock error carrying the elapsed waitTime (status
timeout).  Recursion is by fuel: every contention iteration grows elapsed
by at least 250 ms, so with the fuel chosen in acquireLock below the
fuel-zero case is only reachable with elapsed at least maxWaitMs, where it
returns exactly what the loop-exit branch returns. -/
def acquireLoop (env : AcqEnv) (maxWaitMs : Nat) :
    Nat → Nat → Nat → List Nat → AcqTrace
  | 0, elapsed, attempt, acc =>
      { result := .error (.lockTimeout elapsed), attempts := attempt,
        delays := acc.reverse, status := "timeout" }
  | fuel + 1, elapsed, attempt, acc =>
      if elapsed < maxWaitMs then
        let a := attempt + 1
        let e1 := elapsed + env.duration a
        match env.outcome a with
        | .success =>
            { result := .ok e1, attempts := a,
              delays := acc.reverse, status := "acq" }
        | .failure c =>
            { result := .error (.infra c), attempts := a,
              delays := acc.reverse, status := "err" }
        | .contention =>
            acquireLoop env maxWaitMs fuel (e1 + 250 * a) a (250 * a :: acc)
      else
        { result := .error (.lockTimeout elapsed), attempts := attempt,
          delays := acc.reverse, status := "timeout" }

/-- acquireLock (part_000 lines 160 to 200): maxWait is in seconds, the
loop bound is maxWait * 1000 ms, starting from elapsed 0, attempt 0 and no
backoffs performed. -/
def acquireLock (env : AcqEnv) (maxWait : Nat) : AcqTrace :=
  acquireLoop env (maxWait * 1000) (maxWait * 1000 + 1) 0 0 []

/-- The linear backoff schedule: the sleeps performed after the first n
contended attempts, attempt j + 1 sleeping 250 * (j + 1) ms. -/
def backoffs (n : Nat) : List Nat :=
  (List.range n).map (fun j => 250 * (j + 1))

/-
Interleaving model of N concurrent memoize calls on one shared key, for
the single-flight guarantee.  The shared state keeps the contents of
valueKey (store), the current holder of lockKey (holder), and each
caller's control point, which tracks the position inside memoize's body:
pcStart before the pre-lock read, pcWait after a falsy pre-read while
contending for the lock, pcPostCheck holding the lock before the re-read,
pcCompute after a falsy re-read, pcWrite v after computing v (ttl nonzero,
so the write happens before release), pcRelease v in the finally block,
pcDone v after returning v.  winner and execCount are instrumentation:
which caller ran the computation and how many computations ran (each run
of a caller's computation is its observable side effect).  funcs i is the
value caller i's computation produces; the model covers one cache
generation, so no expiry or clearing occurs during the run. -/
inductive PState where
  | pcStart
  | pcWait
  | pcPostCheck
  | pcCompute
  | pcWrite (v : JsValue)
  | pcRelease (v : JsValue)
  | pcDone (v : JsValue)
  deriving DecidableEq, Repr

/-- Shared state of the N concurrent callers. -/
structure CState (N : Nat) where
  store : Option JsValue
  holder : Option (Fin N)
  winner : Option (Fin N)
  execCount : Nat
  procs : Fin N → PState

/-- Initial state: valueKey absent, lock free, no computation has run, all
callers about to issue their pre-lock read. -/
def cInit (N : Nat) : CState N :=
  { store := none, holder := none, winner := none, execCount := 0,
    procs := fun _ => .pcStart }

/-- One atomic step of one caller, following memoize's control flow.
preHit: the pre-lock read finds a truthy value and the caller returns it
(val-prelock).  preMiss: the pre-lock read finds nothing truthy and the
caller proceeds to contend for the lock.  acquire: a contending caller
gets the free lock (the Coordinator grants it atomically).  postHit: the
re-read under the lock finds a truthy value and the caller will return it
after release (val-postlock).  postMiss: the re-read still finds nothing,
so this caller computes.  exec: the computation runs (the side effect
happens) producing funcs i.  write: the result is put under valueKey
(ttl nonzero).  release: the finally block frees the lock and the caller
returns its value. -/
inductive MStep {N : Nat} (funcs : Fin N → JsValue) :
    CState N → CState N → Prop where
  | preHit {s : CState N} (i : Fin N) (v : JsValue)
      (hp : s.procs i = .pcStart) (hs : s.store = some v)
      (ht : jsTruthy v = true) :
      MStep funcs s { s with procs := Function.update s.procs i (.pcDone v) }
  | preMiss {s : CState N} (i : Fin N)
      (hp : s.procs i = .pcStart) (hs : truthyVal s.store = none) :
      MStep funcs s { s with procs := Function.update s.procs i .pcWait }
  | acquire {s : CState N} (i : Fin N)
      (hp : s.procs i = .pcWait) (hl : s.holder = none) :
      MStep funcs s { s with holder := some i,
                             procs := Function.update s.procs i .pcPostCheck }
  | postHit {s : CState N} (i : Fin N) (v : JsValue)
      (hp : s.procs i = .pcPostCheck) (hs : s.store = some v)
      (ht : jsTruthy v = true) :
      MStep funcs s { s with procs := Function.update s.procs i (.pcRelease v) }
  | postMiss {s : CState N} (i : Fin N)
      (hp : s.procs i = .pcPostCheck) (hs : truthyVal s.store = none) :
      MStep funcs s { s with procs := Function.update s.procs i .pcCompute }
  | exec {s : CState N} (i : Fin N)
      (hp : s.procs i = .pcCompute) :
      MStep funcs s { s with execCount := s.execCount + 1, winner := some i,
                             procs := Function.update s.procs i (.pcWrite (funcs i)) }
  | write {s : CState N} (i : Fin N) (v : JsValue)
      (hp : s.procs i = .pcWrite v) :
      MStep funcs s { s with store := some v,
                             procs := Function.update s.procs i (.pcRelease v) }
  | release {s : CState N} (i : Fin N) (v : JsValue)
      (hp : s.procs i = .pcRelease v) :
      MStep funcs s { s with holder := none,
                             procs := Function.update s.procs i (.pcDone v) }

/-- Finitely many interleaved steps. -/
def MSteps {N : Nat} (funcs : Fin N → JsValue) :
    CState N → CState N → Prop :=
  Relation.ReflTransGen (MStep funcs)

/-- Control points at which memoize's code holds the distributed lock:
from the successful return of acquireLock to the releaseLock call in the
finally block. -/
def HoldsLock (p : PState) : Prop :=
  p = .pcPostCheck ∨ p = .pcCompute ∨
    (∃ v, p = .pcWrite v) ∨ (∃ v, p = .pcRelease v)

/-- Inductive invariant of the interleaving model: the lock holder is
exactly the caller inside the locked region; every stored value is the
winner's computation result; a caller about to compute saw an empty store
under the lock and no computation has run yet; a computed-but-unwritten
value belongs to the lock-holding winner; a caller past the re-read hit or
past its write sees the store populated; every returned value is the
winner's result; and the computation has run exactly once iff a winner
exists. -/
structure SFInv {N : Nat} (funcs : Fin N → JsValue) (s : CState N) : Prop where
  lockedPc : ∀ i, s.holder = some i → HoldsLock (s.procs i)
  pcLocked : ∀ i, HoldsLock (s.procs i) → s.holder = some i
  storeVal : ∀ v, s.store = some v → ∃ w, s.winner = some w ∧ v = funcs w
  winnerSt : ∀ w, s.winner = some w →
    s.store = some (funcs w) ∨ s.procs w = .pcWrite (funcs w)
  compSt : ∀ i, s.procs i = .pcCompute → s.store = none ∧ s.winner = none
  writeSt : ∀ i v, s.procs i = .pcWrite v →
    v = funcs i ∧ s.winner = some i ∧ s.store = none
  relSt : ∀ i v, s.procs i = .pcRelease v → s.store = some v
  doneSt : ∀ i v, s.procs i = .pcDone v → ∃ w, s.winner = some w ∧ v = funcs w
  cntSt : (s.winner = none ∧ s.execCount = 0) ∨
    (∃ w, s.winner = some w ∧ s.execCount = 1)

/-
Concrete data used to exercise the theorems below on explicit inputs.
-/

/-- A memoize environment in which every external interaction succeeds:
the lock is granted, no concurrent caller writes while waiting, every
invocation of the computation yields 7, the put succeeds, the underlying
release succeeds and no execution deadline fires. -/
def envHappy : MemoEnv :=
  { lockOutcome := .ok (), storeAfterLock := id,
    funcOutcome := fun _ => .ok (.vNum 7), putOutcome := .ok (),
    releaseOutcome := .ok (), deadlineFired := false }

/-- A store already holding a truthy cached value for key k. -/
def storeWarm : Store :=
  [{ key := "k-value", value := .vNum 5, ttl := 60 }]

/-- envHappy, except a concurrent caller writes 9 under k-value while this
caller waits for the lock. -/
def envPostWrite : MemoEnv :=
  { envHappy with storeAfterLock := fun s => clientPut s "k-value" (.vNum 9) 60 }

/-- envHappy, except the executeUpToTime deadline fires before the raced
invocation completes. -/
def envDeadline : MemoEnv :=
  { envHappy with deadlineFired := true }

/-- envHappy, except the two invocations of the computation return
distinguishable values. -/
def envTwoStep : MemoEnv :=
  { envHappy with
    funcOutcome := fun n => if n = 0 then .ok (.vStr "first") else .ok (.vStr "second") }

/-- envHappy with a computation returning 42 (the first writer of the
invalidation scenario). -/
def envVal42 : MemoEnv :=
  { envHappy with funcOutcome := fun _ => .ok (.vNum 42) }

/-- envHappy with a computation returning 1 (the recomputation after the
explicit invalidation). -/
def envVal1 : MemoEnv :=
  { envHappy with funcOutcome := fun _ => .ok (.vNum 1) }

/-- envHappy with a computation returning the falsy value 0. -/
def envFalsy : MemoEnv :=
  { envHappy with funcOutcome := fun _ => .ok (.vNum 0) }

/-- envHappy, except the underlying lock release fails. -/
def envRelFail : MemoEnv :=
  { envHappy with releaseOutcome := .error (.infra "connection lost") }

/-- Lock acquisition environment: contention on the first two attempts,
success on the third, every RPC instantaneous. -/
def envAcq1 : AcqEnv :=
  { outcome := fun n => if n < 3 then .contention else .success,
    duration := fun _ => 0 }

/-- Lock acquisition environment: every attempt fails with a
non-contention infrastructure error. -/
def envAcqBad : AcqEnv :=
  { outcome := fun _ => .failure "unavailable", duration := fun _ => 5 }

/-- Two concurrent callers whose computations both produce 1. -/
def funcsPair : Fin 2 → JsValue := fun _ => .vNum 1

/-- States of an explicit complete interleaving of two callers: caller 0
misses the warm-cache read, acquires the lock, misses the re-read,
computes, writes and releases; caller 1 then hits the warm-cache read. -/
def sfA : CState 2 :=
  { cInit 2 with procs := Function.update (cInit 2).procs 0 .pcWait }

def sfB : CState 2 :=
  { sfA with holder := some 0, procs := Function.update sfA.procs 0 .pcPostCheck }

def sfC : CState 2 :=
  { sfB with procs := Function.update sfB.procs 0 .pcCompute }

def sfD : CState 2 :=
  { sfC with
    execCount := sfC.execCount + 1, winner := some 0,
    procs := Function.update sfC.procs 0 (.pcWrite (funcsPair 0)) }

def sfE : CState 2 :=
  { sfD with
    store := some (funcsPair 0),
    procs := Function.update sfD.procs 0 (.pcRelease (funcsPair 0)) }

def sfF : CState 2 :=
  { sfE with
    holder := none,
    procs := Function.update sfE.procs 0 (.pcDone (funcsPair 0)) }

def sfG : CState 2 :=
  { sfF with procs := Function.update sfF.procs 1 (.pcDone (.vNum 1)) }

/-- Two concurrent callers whose computations both produce the falsy 0. -/
def funcsFalsy : Fin 2 → JsValue := fun _ => .vNum 0

/-- States of an explicit complete interleaving of two callers with falsy
computation results: caller 0 misses, locks, computes and writes 0,
releases; caller 1's pre-lock read then sees the stored 0 as absent, so it
locks, misses the re-read again and recomputes (states sg4 to sg12,
continuing from sfC). -/
def sg4 : CState 2 :=
  { sfC with
    execCount := sfC.execCount + 1, winner := some 0,
    procs := Function.update sfC.procs 0 (.pcWrite (funcsFalsy 0)) }

def sg5 : CState 2 :=
  { sg4 with
    store := some (funcsFalsy 0),
    procs := Function.update sg4.procs 0 (.pcRelease (funcsFalsy 0)) }

def sg6 : CState 2 :=
  { sg5 with
    holder := none,
    procs := Function.update sg5.procs 0 (.pcDone (funcsFalsy 0)) }

def sg7 : CState 2 :=
  { sg6 with procs := Function.update sg6.procs 1 .pcWait }

def sg8 : CState 2 :=
  { sg7 with holder := some 1, procs := Function.update sg7.procs 1 .pcPostCheck }

def sg9 : CState 2 :=
  { sg8 with procs := Function.update sg8.procs 1 .pcCompute }

def sg10 : CState 2 :=
  { sg9 with
    execCount := sg9.execCount + 1, winner := some 1,
    procs := Function.update sg9.procs 1 (.pcWrite (funcsFalsy 1)) }

def sg11 : CState 2 :=
  { sg10 with
    store := some (funcsFalsy 1),
    procs := Function.update sg10.procs 1 (.pcRelease (funcsFalsy 1)) }

def sg12 : CState 2 :=
  { sg11 with
    holder := none,
    procs := Function.update sg11.procs 1 (.pcDone (funcsFalsy 1)) }

/-
Store lemmas shared by the memoization theorems.
-/

lemma storeGetEntry_put_self (s : Store) (k : String) (v : JsValue) (ttl : Nat) :
    storeGetEntry (storePut s k v ttl) k =
      some { key := k, value := v, ttl := ttl } := by
  simp [storeGetEntry, storePut, List.find?]

lemma storeGet_put_self (s : Store) (k : String) (v : JsValue) (ttl : Nat) :
    storeGet (storePut s k v ttl) k = some v := by
  simp [storeGet, storeGetEntry_put_self]

lemma storeGetEntry_del_self (s : Store) (k : String) :
    storeGetEntry (storeDel s k) k = none := by
  rw [storeGetEntry, List.find?_eq_none]
  intro e he
  simp only [storeDel] at he
  have h2 := List.of_mem_filter he
  simpa using h2

lemma storeGet_del_self (s : Store) (k : String) :
    storeGet (storeDel s k) k = none := by
  simp [storeGet, storeGetEntry_del_self]

lemma releaseLock_eq_none (u : Except EtcdError Unit) : releaseLock u = none := by
  cases u <;> rfl

/-
Lemmas about the acquireLock retry loop.
-/

lemma backoffs_succ (n : Nat) :
    backoffs (n + 1) = backoffs n ++ [250 * (n + 1)] := by
  simp [backoffs, List.range_succ]

lemma backoffs_length (n : Nat) : (backoffs n).length = n := by
  simp [backoffs]

lemma acquireLoop_delays_backoffs (env : AcqEnv) (M : Nat) :
    ∀ fuel elapsed attempt, ∃ k, attempt ≤ k ∧
      (acquireLoop env M fuel elapsed attempt
        (backoffs attempt).reverse).delays = backoffs k := by
  intro fuel
  induction fuel with
  | zero =>
    intro elapsed attempt
    exact ⟨attempt, Nat.le_refl _, by simp [acquireLoop]⟩
  | succ fuel ih =>
    intro elapsed attempt
    by_cases h : elapsed < M
    · rcases ho : env.outcome (attempt + 1) with _ | _ | c
      · exact ⟨attempt, Nat.le_refl _, by simp [acquireLoop, h, ho]⟩
      · have hacc : (250 * (attempt + 1) :: (backoffs attempt).reverse)
            = (backoffs (attempt + 1)).reverse := by
          simp [backoffs_succ]
        obtain ⟨k, hk, hd⟩ :=
          ih (elapsed + env.duration (attempt + 1) + 250 * (attempt + 1)) (attempt + 1)
        refine ⟨k, Nat.le_trans (Nat.le_succ _) hk, ?_⟩
        rw [← hd]
        simp only [acquireLoop, if_pos h, ho]
        rw [hacc]
      · exact ⟨attempt, Nat.le_refl _, by simp [acquireLoop, h, ho]⟩
    · exact ⟨attempt, Nat.le_refl _, by simp [acquireLoop, h]⟩

lemma backoffs_getD (k i : Nat) (h : i < k) :
    (backoffs k).getD i 0 = 250 * (i + 1) := by
  simp [backoffs, List.getD, List.getElem?_map, List.getElem?_range h]

/-- C4: acquireLock with maxWait = 0 makes zero acquire attempts and fails
immediately with the Timeout error, because the loop condition
elapsed < maxWait * 1000 is false on entry. -/
theorem acquireLock_maxWait_zero (env : AcqEnv) :
    acquireLock env 0 =
      { result := .error (.lockTimeout 0), attempts := 0,
        delays := [], status := "timeout" } := rfl

/-- C5: the backoff sleeps performed by acquireLock form the exact linear
schedule 250 * i ms after the i-th contended attempt: the recorded delay
list is an initial segment of 250, 500, 750, ..., so its i-th element
(0-indexed) is 250 * (i + 1). -/
theorem acquireLock_backoff_linear (env : AcqEnv) (maxWait : Nat) :
    (acquireLock env maxWait).delays =
      backoffs ((acquireLock env maxWait).delays.length) ∧
    ∀ i, i < (acquireLock env maxWait).delays.length →
      (acquireLock env maxWait).delays.getD i 0 = 250 * (i + 1) := by
  obtain ⟨k, _, hd⟩ :=
    acquireLoop_delays_backoffs env (maxWait * 1000) (maxWait * 1000 + 1) 0 0
  have hd2 : (acquireLock env maxWait).delays = backoffs k := hd
  constructor
  · rw [hd2, backoffs_length]
  · intro i hi
    rw [hd2] at hi ⊢
    rw [backoffs_length] at hi
    exact backoffs_getD k i hi

/-- C5 witness: with contention on the first two attempts, the first
recorded backoff is 250 ms. -/
theorem acquireLock_backoff_linear_witness :
    0 < (acquireLock envAcq1 1).delays.length ∧
    (acquireLock envAcq1 1).delays.getD 0 0 = 250 ∧
    (acquireLock envAcq1 1).delays.getD 1 0 = 500 :=
  ⟨by decide, (acquireLock_backoff_linear envAcq1 1).2 0 (by decide),
    (acquireLock_backoff_linear envAcq1 1).2 1 (by decide)⟩

/-- C6: whenever an acquire attempt inside the loop fails with anything
other than the Contention error, the loop stops at that attempt: finish
status err is emitted, that error is rethrown, no backoff sleep is added
and no further attempt is made. -/
theorem acquireLock_nonContention_aborts (env : AcqEnv)
    (M fuel elapsed attempt : Nat) (acc : List Nat) (c : String)
    (he : elapsed < M) (ho : env.outcome (attempt + 1) = .failure c) :
    acquireLoop env M (fuel + 1) elapsed attempt acc =
      { result := .error (.infra c), attempts := attempt + 1,
        delays := acc.reverse, status := "err" } := by
  simp [acquireLoop, he, ho]

/-- C6 witness: an infrastructure failure on the very first attempt aborts
acquireLock at once with status err. -/
theorem acquireLock_nonContention_aborts_witness :
    (0 < 30000) ∧ envAcqBad.outcome 1 = .failure "unavailable" ∧
    acquireLoop envAcqBad 30000 3 0 0 [] =
      { result := .error (.infra "unavailable"), attempts := 1,
        delays := [], status := "err" } :=
  ⟨by decide, rfl,
    acquireLock_nonContention_aborts envAcqBad 30000 2 0 0 [] "unavailable"
      (by decide) rfl⟩

/-
Branch lemmas for memoize: one equation per control path of the source.
-/

lemma memoize_prelock (env : MemoEnv) (s : Store) (key : String)
    (ttl tmo mw mex : Nat) (v : JsValue)
    (h1 : truthyVal (clientGet s (key ++ "-value")) = some v) :
    memoize env s key ttl tmo mw mex =
      { finalStore := s, result := .ok v, status := "val-prelock",
        funcCalls := 0, putCalls := 0, lockRequested := none,
        lockAcquired := false, releaseResults := [] } := by
  simp [memoize, h1]

lemma memoize_lockfail (env : MemoEnv) (s : Store) (key : String)
    (ttl tmo mw mex : Nat) (e : EtcdError)
    (h1 : truthyVal (clientGet s (key ++ "-value")) = none)
    (hl : env.lockOutcome = .error e) :
    memoize env s key ttl tmo mw mex =
      { finalStore := s, result := .error e, status := "error",
        funcCalls := 0, putCalls := 0,
        lockRequested := some (key ++ "-lock", tmo, mw),
        lockAcquired := false, releaseResults := [] } := by
  simp [memoize, h1, hl]

lemma memoize_postlock (env : MemoEnv) (s : Store) (key : String)
    (ttl tmo mw mex : Nat) (v : JsValue)
    (h1 : truthyVal (clientGet s (key ++ "-value")) = none)
    (hl : env.lockOutcome = .ok ())
    (h2 : truthyVal (clientGet (env.storeAfterLock s) (key ++ "-value")) = some v) :
    memoize env s key ttl tmo mw mex =
      { finalStore := env.storeAfterLock s, result := .ok v,
        status := "val-postlock", funcCalls := 0, putCalls := 0,
        lockRequested := some (key ++ "-lock", tmo, mw),
        lockAcquired := true,
        releaseResults := [releaseLock env.releaseOutcome] } := by
  simp [memoize, h1, hl, h2]

lemma memoize_fnErr1 (env : MemoEnv) (s : Store) (key : String)
    (ttl tmo mw mex : Nat) (e : EtcdError)
    (h1 : truthyVal (clientGet s (key ++ "-value")) = none)
    (hl : env.lockOutcome = .ok ())
    (h2 : truthyVal (clientGet (env.storeAfterLock s) (key ++ "-value")) = none)
    (h3 : executeUpToTime (mex * 1000) env.deadlineFired (env.funcOutcome 0)
      = .error e) :
    memoize env s key ttl tmo mw mex =
      { finalStore := env.storeAfterLock s, result := .error e,
        status := "fn-error", funcCalls := 1, putCalls := 0,
        lockRequested := some (key ++ "-lock", tmo, mw),
        lockAcquired := true,
        releaseResults := [releaseLock env.releaseOutcome] } := by
  simp [memoize, h1, hl, h2, h3]

lemma memoize_fnErr2 (env : MemoEnv) (s : Store) (key : String)
    (ttl tmo mw mex : Nat) (v0 : JsValue) (e : EtcdError)
    (h1 : truthyVal (clientGet s (key ++ "-value")) = none)
    (hl : env.lockOutcome = .ok ())
    (h2 : truthyVal (clientGet (env.storeAfterLock s) (key ++ "-value")) = none)
    (h3 : executeUpToTime (mex * 1000) env.deadlineFired (env.funcOutcome 0)
      = .ok v0)
    (h4 : env.funcOutcome 1 = .error e) :
    memoize env s key ttl tmo mw mex =
      { finalStore := env.storeAfterLock s, result := .error e,
        status := "fn-error", funcCalls := 2, putCalls := 0,
        lockRequested := some (key ++ "-lock", tmo, mw),
        lockAcquired := true,
        releaseResults := [releaseLock env.releaseOutcome] } := by
  simp [memoize, h1, hl, h2, h3, h4]

lemma memoize_eval_store (env : MemoEnv) (s : Store) (key : String)
    (ttl tmo mw mex : Nat) (v0 v1 : JsValue)
    (h1 : truthyVal (clientGet s (key ++ "-value")) = none)
    (hl : env.lockOutcome = .ok ())
    (h2 : truthyVal (clientGet (env.storeAfterLock s) (key ++ "-value")) = none)
    (h3 : executeUpToTime (mex * 1000) env.deadlineFired (env.funcOutcome 0)
      = .ok v0)
    (h4 : env.funcOutcome 1 = .ok v1)
    (h5 : env.putOutcome = .ok ())
    (h6 : ttl ≠ 0) :
    memoize env s key ttl tmo mw mex =
      { finalStore := clientPut (env.storeAfterLock s) (key ++ "-value") v1 ttl,
        result := .ok v1, status := "val-eval", funcCalls := 2, putCalls := 1,
        lockRequested := some (key ++ "-lock", tmo, mw),
        lockAcquired := true,
        releaseResults := [releaseLock env.releaseOutcome] } := by
  simp [memoize, h1, hl, h2, h3, h4, h5, h6]

lemma memoize_eval_putfail (env : MemoEnv) (s : Store) (key : String)
    (ttl tmo mw mex : Nat) (v0 v1 : JsValue) (e : EtcdError)
    (h1 : truthyVal (clientGet s (key ++ "-value")) = none)
    (hl : env.lockOutcome = .ok ())
    (h2 : truthyVal (clientGet (env.storeAfterLock s) (key ++ "-value")) = none)
    (h3 : executeUpToTime (mex * 1000) env.deadlineFired (env.funcOutcome 0)
      = .ok v0)
    (h4 : env.funcOutcome 1 = .ok v1)
    (h5 : env.putOutcome = .error e)
    (h6 : ttl ≠ 0) :
    memoize env s key ttl tmo mw mex =
      { finalStore := env.storeAfterLock s, result := .error e,
        status := "error", funcCalls := 2, putCalls := 1,
        lockRequested := some (key ++ "-lock", tmo, mw),
        lockAcquired := true,
        releaseResults := [releaseLock env.releaseOutcome] } := by
  simp [memoize, h1, hl, h2, h3, h4, h5, h6]

lemma memoize_eval_nostore (env : MemoEnv) (s : Store) (key : String)
    (tmo mw mex : Nat) (v0 v1 : JsValue)
    (h1 : truthyVal (clientGet s (key ++ "-value")) = none)
    (hl : env.lockOutcome = .ok ())
    (h2 : truthyVal (clientGet (env.storeAfterLock s) (key ++ "-value")) = none)
    (h3 : executeUpToTime (mex * 1000) env.deadlineFired (env.funcOutcome 0)
      = .ok v0)
    (h4 : env.funcOutcome 1 = .ok v1) :
    memoize env s key 0 tmo mw mex =
      { finalStore := env.storeAfterLock s, result := .ok v1,
        status := "val-eval", funcCalls := 2, putCalls := 0,
        lockRequested := some (key ++ "-lock", tmo, mw),
        lockAcquired := true,
        releaseResults := [releaseLock env.releaseOutcome] } := by
  simp [memoize, h1, hl, h2, h3, h4]

/-- C1: memoize follows the double-checked protocol: the pre-lock read of
valueKey (key + "-value"), when truthy, is returned at once with status
val-prelock and no lock interaction at all; otherwise acquireLock is
requested on lockKey (key + "-lock") with the given timeout and maxWait,
and valueKey is re-read under the lock: a truthy post-lock value is
returned with status val-postlock and the computation is not invoked; the
computation is invoked only when both reads found no truthy value. -/
theorem memoize_double_checked (env : MemoEnv) (s : Store) (key : String)
    (ttl tmo mw mex : Nat) :
    (∀ v, truthyVal (clientGet s (key ++ "-value")) = some v →
      memoize env s key ttl tmo mw mex =
        { finalStore := s, result := .ok v, status := "val-prelock",
          funcCalls := 0, putCalls := 0, lockRequested := none,
          lockAcquired := false, releaseResults := [] }) ∧
    (truthyVal (clientGet s (key ++ "-value")) = none →
      (memoize env s key ttl tmo mw mex).lockRequested =
        some (key ++ "-lock", tmo, mw)) ∧
    (∀ v, truthyVal (clientGet s (key ++ "-value")) = none →
      env.lockOutcome = .ok () →
      truthyVal (clientGet (env.storeAfterLock s) (key ++ "-value")) = some v →
      (memoize env s key ttl tmo mw mex).result = .ok v ∧
      (memoize env s key ttl tmo mw mex).status = "val-postlock" ∧
      (memoize env s key ttl tmo mw mex).funcCalls = 0 ∧
      (memoize env s key ttl tmo mw mex).lockAcquired = true) ∧
    (0 < (memoize env s key ttl tmo mw mex).funcCalls →
      truthyVal (clientGet s (key ++ "-value")) = none ∧
      truthyVal (clientGet (env.storeAfterLock s) (key ++ "-value")) = none ∧
      env.lockOutcome = .ok ()) := by
  refine ⟨fun v hv => memoize_prelock env s key ttl tmo mw mex v hv, ?_, ?_, ?_⟩
  · intro h1
    unfold memoize
    rcases hl : env.lockOutcome with e | u <;>
      rcases h2 : truthyVal (clientGet (env.storeAfterLock s) (key ++ "-value"))
        with _ | v2 <;>
      rcases h3 : executeUpToTime (mex * 1000) env.deadlineFired (env.funcOutcome 0)
        with e3 | v3 <;>
      rcases h4 : env.funcOutcome 1 with e4 | v4 <;>
      rcases h5 : env.putOutcome with e5 | u5 <;>
      by_cases h6 : ttl = 0 <;>
      simp [h1, hl, h2, h3, h4, h5, h6]
  · intro v h1 hl h2
    rw [memoize_postlock env s key ttl tmo mw mex v h1 hl h2]
    exact ⟨rfl, rfl, rfl, rfl⟩
  · intro hf
    rcases h1 : truthyVal (clientGet s (key ++ "-value")) with _ | v
    case some =>
      rw [memoize_prelock env s key ttl tmo mw mex v h1] at hf
      exact absurd hf (by simp)
    rcases hl : env.lockOutcome with e | u
    · rw [memoize_lockfail env s key ttl tmo mw mex e h1 hl] at hf
      exact absurd hf (by simp)
    obtain ⟨⟩ := u
    rcases h2 : truthyVal (clientGet (env.storeAfterLock s) (key ++ "-value"))
      with _ | v2
    case some =>
      rw [memoize_postlock env s key ttl tmo mw mex v2 h1 hl h2] at hf
      exact absurd hf (by simp)
    exact ⟨rfl, rfl, rfl⟩

/-- C1 witness: a warm cache returns the stored 5 on the pre-lock read
without requesting the lock. -/
theorem memoize_double_checked_witness :
    truthyVal (clientGet storeWarm ("k" ++ "-value")) = some (.vNum 5) ∧
    memoize envHappy storeWarm "k" 300 10 30 0 =
      { finalStore := storeWarm, result := .ok (.vNum 5),
        status := "val-prelock", funcCalls := 0, putCalls := 0,
        lockRequested := none, lockAcquired := false, releaseResults := [] } :=
  ⟨rfl, (memoize_double_checked envHappy storeWarm "k" 300 10 30 0).1 (.vNum 5) rfl⟩

/-- C3: after a successful computation, a nonzero ttl (defaulting to
60 * 5 = 300 seconds) writes the result to valueKey with that ttl, while
ttl = 0 returns the result without persisting anything, leaving valueKey
untruthy for every future call. -/
theorem memoize_ttl_semantics (env : MemoEnv) (s : Store) (key : String)
    (ttl tmo mw mex : Nat) (v0 v1 : JsValue)
    (hpre : truthyVal (clientGet s (key ++ "-value")) = none)
    (hlock : env.lockOutcome = .ok ())
    (hpost : truthyVal (clientGet (env.storeAfterLock s) (key ++ "-value")) = none)
    (hf0 : executeUpToTime (mex * 1000) env.deadlineFired (env.funcOutcome 0)
      = .ok v0)
    (hf1 : env.funcOutcome 1 = .ok v1)
    (hput : env.putOutcome = .ok ()) :
    memoizeDefaultTtl = 300 ∧
    memoizeDefaults env s key = memoize env s key 300 10 30 0 ∧
    (ttl ≠ 0 →
      (memoize env s key ttl tmo mw mex).result = .ok v1 ∧
      (memoize env s key ttl tmo mw mex).status = "val-eval" ∧
      (memoize env s key ttl tmo mw mex).finalStore =
        clientPut (env.storeAfterLock s) (key ++ "-value") v1 ttl ∧
      storeGetEntry ((memoize env s key ttl tmo mw mex).finalStore)
        (key ++ "-value") =
        some { key := key ++ "-value", value := v1, ttl := ttl }) ∧
    (ttl = 0 →
      (memoize env s key ttl tmo mw mex).result = .ok v1 ∧
      (memoize env s key ttl tmo mw mex).status = "val-eval" ∧
      (memoize env s key ttl tmo mw mex).putCalls = 0 ∧
      (memoize env s key ttl tmo mw mex).finalStore = env.storeAfterLock s ∧
      truthyVal (clientGet ((memoize env s key ttl tmo mw mex).finalStore)
        (key ++ "-value")) = none) := by
  refine ⟨rfl, rfl, ?_, ?_⟩
  · intro h6
    rw [memoize_eval_store env s key ttl tmo mw mex v0 v1
      hpre hlock hpost hf0 hf1 hput h6]
    exact ⟨rfl, rfl, rfl, storeGetEntry_put_self _ _ _ _⟩
  · intro h6
    subst h6
    rw [memoize_eval_nostore env s key tmo mw mex v0 v1
      hpre hlock hpost hf0 hf1]
    exact ⟨rfl, rfl, rfl, rfl, hpost⟩

/-- C3 witness: on an empty store, ttl 300 stores the computed 7 under
k-value with ttl 300; ttl 0 returns 7 without any put. -/
theorem memoize_ttl_semantics_witness :
    ((memoize envHappy [] "k" 300 10 30 0).result = .ok (.vNum 7) ∧
     (memoize envHappy [] "k" 300 10 30 0).status = "val-eval" ∧
     storeGetEntry ((memoize envHappy [] "k" 300 10 30 0).finalStore)
       ("k" ++ "-value") =
       some { key := "k" ++ "-value", value := .vNum 7, ttl := 300 }) ∧
    ((memoize envHappy [] "k" 0 10 30 0).putCalls = 0 ∧
     (memoize envHappy [] "k" 0 10 30 0).result = .ok (.vNum 7)) := by
  have hA := memoize_ttl_semantics envHappy [] "k" 300 10 30 0 (.vNum 7) (.vNum 7)
    rfl rfl rfl rfl rfl rfl
  have hB := memoize_ttl_semantics envHappy [] "k" 0 10 30 0 (.vNum 7) (.vNum 7)
    rfl rfl rfl rfl rfl rfl
  obtain ⟨-, -, hA3, -⟩ := hA
  obtain ⟨-, -, -, hB4⟩ := hB
  obtain ⟨r1, r2, -, r4⟩ := hA3 (by decide)
  obtain ⟨q1, -, q3, -, -⟩ := hB4 rfl
  exact ⟨⟨r1, r2, r4⟩, q3, q1⟩

/-- C7: once memoize has acquired the lock, releaseLock is called exactly
once on every exit path (it is called exactly when the lock was acquired);
releaseLock surfaces no error whatever the underlying release does; and
memoize's entire observable outcome is unchanged by the release outcome. -/
theorem memoize_release_exactly_once (env : MemoEnv) (s : Store) (key : String)
    (ttl tmo mw mex : Nat) (r : Except EtcdError Unit) :
    ((memoize env s key ttl tmo mw mex).releaseResults.length =
      if (memoize env s key ttl tmo mw mex).lockAcquired then 1 else 0) ∧
    (∀ o ∈ (memoize env s key ttl tmo mw mex).releaseResults, o = none) ∧
    releaseLock r = none ∧
    memoize { env with releaseOutcome := r } s key ttl tmo mw mex =
      memoize env s key ttl tmo mw mex := by
  refine ⟨?_, ?_, releaseLock_eq_none r, ?_⟩ <;>
  · unfold memoize
    rcases h1 : truthyVal (clientGet s (key ++ "-value")) with _ | v <;>
      rcases hl : env.lockOutcome with e | u <;>
      rcases h2 : truthyVal (clientGet (env.storeAfterLock s) (key ++ "-value"))
        with _ | v2 <;>
      rcases h3 : executeUpToTime (mex * 1000) env.deadlineFired (env.funcOutcome 0)
        with e3 | v3 <;>
      rcases h4 : env.funcOutcome 1 with e4 | v4 <;>
      rcases h5 : env.putOutcome with e5 | u5 <;>
      by_cases h6 : ttl = 0 <;>
      simp [h1, hl, h2, h3, h4, h5, h6, releaseLock_eq_none]

/-- C7 witness: with a failing underlying release, memoize still records a
single silent release and is byte-for-byte identical to the run with a
successful release. -/
theorem memoize_release_exactly_once_witness :
    ((memoize envRelFail [] "k" 300 10 30 0).releaseResults.length =
      if (memoize envRelFail [] "k" 300 10 30 0).lockAcquired then 1 else 0) ∧
    ((memoize envRelFail [] "k" 300 10 30 0).releaseResults.getD 0
      (some .fnTimeout) = none) ∧
    memoize { envRelFail with releaseOutcome := .ok () } [] "k" 300 10 30 0 =
      memoize envRelFail [] "k" 300 10 30 0 := by
  obtain ⟨a, b, -, d⟩ :=
    memoize_release_exactly_once envRelFail [] "k" 300 10 30 0 (.ok ())
  exact ⟨a, b ((memoize envRelFail [] "k" 300 10 30 0).releaseResults.getD 0
    (some .fnTimeout)) (by decide), d⟩

/-- C8 counterexample: with maxExecutionTime = 1 and the deadline firing
before the raced invocation completes, the compute branch is reached
(status fn-error, lock acquired) but the computation is invoked only once,
not twice, and the call throws instead of returning a second invocation's
result. -/
theorem memoize_timed_variant_cex :
    (memoize envDeadline [] "k" 300 10 30 1).status = "fn-error" ∧
    (memoize envDeadline [] "k" 300 10 30 1).lockAcquired = true ∧
    (memoize envDeadline [] "k" 300 10 30 1).funcCalls = 1 ∧
    (memoize envDeadline [] "k" 300 10 30 1).result = .error .fnTimeout :=
  ⟨rfl, rfl, rfl, rfl⟩

/-- C8 amended: whenever the compute branch is reached and the raced first
invocation completes in time (always the case when maxExecutionTime = 0),
the computation is invoked exactly twice, the first (raced) result v0 is
discarded, and only the second invocation's outcome is stored and
returned; if instead the race fails, the call throws without a second
invocation (see the counterexample). -/
theorem memoize_timed_variant_amended (env : MemoEnv) (s : Store) (key : String)
    (ttl tmo mw mex : Nat) (v0 : JsValue)
    (h1 : truthyVal (clientGet s (key ++ "-value")) = none)
    (hl : env.lockOutcome = .ok ())
    (h2 : truthyVal (clientGet (env.storeAfterLock s) (key ++ "-value")) = none)
    (h3 : executeUpToTime (mex * 1000) env.deadlineFired (env.funcOutcome 0)
      = .ok v0) :
    (memoize env s key ttl tmo mw mex).funcCalls = 2 ∧
    (∀ v1, env.funcOutcome 1 = .ok v1 →
      (ttl = 0 → (memoize env s key ttl tmo mw mex).result = .ok v1) ∧
      (ttl ≠ 0 → env.putOutcome = .ok () →
        (memoize env s key ttl tmo mw mex).result = .ok v1 ∧
        storeGet ((memoize env s key ttl tmo mw mex).finalStore)
          (key ++ "-value") = some v1)) ∧
    (∀ e1, env.funcOutcome 1 = .error e1 →
      (memoize env s key ttl tmo mw mex).result = .error e1) := by
  refine ⟨?_, ?_, ?_⟩
  · rcases h4 : env.funcOutcome 1 with e4 | v4
    · rw [memoize_fnErr2 env s key ttl tmo mw mex v0 e4 h1 hl h2 h3 h4]
    · by_cases h6 : ttl = 0
      · subst h6
        rw [memoize_eval_nostore env s key tmo mw mex v0 v4 h1 hl h2 h3 h4]
      · rcases h5 : env.putOutcome with e5 | u5
        · rw [memoize_eval_putfail env s key ttl tmo mw mex v0 v4 e5
            h1 hl h2 h3 h4 h5 h6]
        · obtain ⟨⟩ := u5
          rw [memoize_eval_store env s key ttl tmo mw mex v0 v4
            h1 hl h2 h3 h4 h5 h6]
  · intro v1 h4
    constructor
    · intro h6
      subst h6
      rw [memoize_eval_nostore env s key tmo mw mex v0 v1 h1 hl h2 h3 h4]
    · intro h6 h5
      rw [memoize_eval_store env s key ttl tmo mw mex v0 v1
        h1 hl h2 h3 h4 h5 h6]
      exact ⟨rfl, storeGet_put_self _ _ _ _⟩
  · intro e1 h4
    rw [memoize_fnErr2 env s key ttl tmo mw mex v0 e1 h1 hl h2 h3 h4]

/-- C8 amended witness: with distinguishable invocation results, the call
returns and stores the second invocation's value, discarding the first. -/
theorem memoize_timed_variant_amended_witness :
    (memoize envTwoStep [] "k" 300 10 30 0).funcCalls = 2 ∧
    (memoize envTwoStep [] "k" 300 10 30 0).result = .ok (.vStr "second") ∧
    storeGet ((memoize envTwoStep [] "k" 300 10 30 0).finalStore)
      ("k" ++ "-value") = some (.vStr "second") := by
  obtain ⟨a, b, -⟩ := memoize_timed_variant_amended envTwoStep [] "k" 300 10 30 0
    (.vStr "first") rfl rfl rfl rfl
  obtain ⟨-, b2⟩ := b (.vStr "second") rfl
  obtain ⟨c1, c2⟩ := b2 (by decide) rfl
  exact ⟨a, c1, c2⟩

/-- C9: clearMemoizedValue deletes valueKey, so after a memoize stored a
truthy result, clearing makes the next memoize call (with any environment
that does not itself repopulate the key) invoke its computation and return
the fresh result rather than the stale cached one. -/
theorem clearMemoizedValue_invalidates (envF envG : MemoEnv) (s : Store)
    (key : String) (ttl tG tmo mw mex : Nat) (v0 v1 w0 v2 : JsValue)
    (hpre : truthyVal (clientGet s (key ++ "-value")) = none)
    (hlockF : envF.lockOutcome = .ok ())
    (hpostF : truthyVal (clientGet (envF.storeAfterLock s) (key ++ "-value"))
      = none)
    (hF0 : executeUpToTime (mex * 1000) envF.deadlineFired (envF.funcOutcome 0)
      = .ok v0)
    (hF1 : envF.funcOutcome 1 = .ok v1)
    (hputF : envF.putOutcome = .ok ())
    (httl : ttl ≠ 0)
    (hlockG : envG.lockOutcome = .ok ())
    (hidG : envG.storeAfterLock = id)
    (hG0 : executeUpToTime (mex * 1000) envG.deadlineFired (envG.funcOutcome 0)
      = .ok w0)
    (hG1 : envG.funcOutcome 1 = .ok v2)
    (hputG : envG.putOutcome = .ok ()) :
    storeGet ((memoize envF s key ttl tmo mw mex).finalStore) (key ++ "-value")
      = some v1 ∧
    clientGet
      (clearMemoizedValue ((memoize envF s key ttl tmo mw mex).finalStore) key)
      (key ++ "-value") = none ∧
    (memoize envG
      (clearMemoizedValue ((memoize envF s key ttl tmo mw mex).finalStore) key)
      key tG tmo mw mex).result = .ok v2 ∧
    (memoize envG
      (clearMemoizedValue ((memoize envF s key ttl tmo mw mex).finalStore) key)
      key tG tmo mw mex).funcCalls = 2 := by
  rw [memoize_eval_store envF s key ttl tmo mw mex v0 v1
    hpre hlockF hpostF hF0 hF1 hputF httl]
  have hstore :
      storeGet (clientPut (envF.storeAfterLock s) (key ++ "-value") v1 ttl)
        (key ++ "-value") = some v1 := storeGet_put_self _ _ _ _
  have hclear :
      clientGet
        (clearMemoizedValue
          (clientPut (envF.storeAfterLock s) (key ++ "-value") v1 ttl) key)
        (key ++ "-value") = none := by
    simp only [clearMemoizedValue, clientDel, clientGet]
    exact storeGet_del_self _ _
  have hclearT :
      truthyVal (clientGet
        (clearMemoizedValue
          (clientPut (envF.storeAfterLock s) (key ++ "-value") v1 ttl) key)
        (key ++ "-value")) = none := by
    rw [hclear]; rfl
  have hpostG :
      truthyVal (clientGet
        (envG.storeAfterLock
          (clearMemoizedValue
            (clientPut (envF.storeAfterLock s) (key ++ "-value") v1 ttl) key))
        (key ++ "-value")) = none := by
    rw [hidG]; exact hclearT
  refine ⟨hstore, hclear, ?_, ?_⟩ <;>
  · by_cases h6 : tG = 0
    · subst h6
      rw [memoize_eval_nostore envG _ key tmo mw mex w0 v2
        hclearT hlockG hpostG hG0 hG1]
    · rw [memoize_eval_store envG _ key tG tmo mw mex w0 v2
        hclearT hlockG hpostG hG0 hG1 hputG h6]

/-- C9 witness: memoize stores 42 with ttl 30, clearMemoizedValue deletes
it, and the next memoize computes and returns 1 instead of the stale 42
(the scenario of tests/test_memoize.js lines 52 to 56). -/
theorem clearMemoizedValue_invalidates_witness :
    storeGet ((memoize envVal42 [] "k" 30 10 30 0).finalStore) ("k" ++ "-value")
      = some (.vNum 42) ∧
    clientGet
      (clearMemoizedValue ((memoize envVal42 [] "k" 30 10 30 0).finalStore) "k")
      ("k" ++ "-value") = none ∧
    (memoize envVal1
      (clearMemoizedValue ((memoize envVal42 [] "k" 30 10 30 0).finalStore) "k")
      "k" 30 10 30 0).result = .ok (.vNum 1) ∧
    (memoize envVal1
      (clearMemoizedValue ((memoize envVal42 [] "k" 30 10 30 0).finalStore) "k")
      "k" 30 10 30 0).funcCalls = 2 :=
  clearMemoizedValue_invalidates envVal42 envVal1 [] "k" 30 30 10 30 0
    (.vNum 42) (.vNum 42) (.vNum 1) (.vNum 1)
    rfl rfl rfl rfl rfl rfl (by decide) rfl rfl rfl rfl rfl

/-- C10: a falsy computation result (here any v with jsTruthy v = false,
such as 0, false, the empty string or null) is returned to the caller and
written to the store, yet both the pre-lock and post-lock reads of any
later memoize call treat the stored entry as absent, so the later call
requests and acquires the lock again and reruns the computation even
though the entry is still within its TTL window (the model performs no
expiry at all). -/
theorem memoize_falsy_never_cached (env env2 : MemoEnv) (s : Store)
    (key : String) (ttl ttl2 tmo mw mex mex2 : Nat) (v0 v : JsValue)
    (hv : jsTruthy v = false)
    (hpre : truthyVal (clientGet s (key ++ "-value")) = none)
    (hlock : env.lockOutcome = .ok ())
    (hpost : truthyVal (clientGet (env.storeAfterLock s) (key ++ "-value"))
      = none)
    (hf0 : executeUpToTime (mex * 1000) env.deadlineFired (env.funcOutcome 0)
      = .ok v0)
    (hf1 : env.funcOutcome 1 = .ok v)
    (hput : env.putOutcome = .ok ())
    (httl : ttl ≠ 0)
    (hlock2 : env2.lockOutcome = .ok ())
    (hid2 : env2.storeAfterLock = id) :
    (memoize env s key ttl tmo mw mex).result = .ok v ∧
    storeGet ((memoize env s key ttl tmo mw mex).finalStore) (key ++ "-value")
      = some v ∧
    truthyVal (clientGet ((memoize env s key ttl tmo mw mex).finalStore)
      (key ++ "-value")) = none ∧
    (memoize env2 ((memoize env s key ttl tmo mw mex).finalStore) key
      ttl2 tmo mw mex2).lockRequested = some (key ++ "-lock", tmo, mw) ∧
    (memoize env2 ((memoize env s key ttl tmo mw mex).finalStore) key
      ttl2 tmo mw mex2).lockAcquired = true ∧
    0 < (memoize env2 ((memoize env s key ttl tmo mw mex).finalStore) key
      ttl2 tmo mw mex2).funcCalls := by
  rw [memoize_eval_store env s key ttl tmo mw mex v0 v
    hpre hlock hpost hf0 hf1 hput httl]
  have hstore :
      storeGet (clientPut (env.storeAfterLock s) (key ++ "-value") v ttl)
        (key ++ "-value") = some v := storeGet_put_self _ _ _ _
  have hfalsy :
      truthyVal (clientGet (clientPut (env.storeAfterLock s) (key ++ "-value")
        v ttl) (key ++ "-value")) = none := by
    simp only [clientGet] at hstore ⊢
    rw [hstore]
    simp [truthyVal, hv]
  have hpost2 :
      truthyVal (clientGet (env2.storeAfterLock
        (clientPut (env.storeAfterLock s) (key ++ "-value") v ttl))
        (key ++ "-value")) = none := by
    rw [hid2]; exact hfalsy
  refine ⟨rfl, hstore, hfalsy, ?_, ?_, ?_⟩
  · rcases h3 : executeUpToTime (mex2 * 1000) env2.deadlineFired
      (env2.funcOutcome 0) with e3 | v3
    · rw [memoize_fnErr1 env2 _ key ttl2 tmo mw mex2 e3
        hfalsy hlock2 hpost2 h3]
    · rcases h4 : env2.funcOutcome 1 with e4 | v4
      · rw [memoize_fnErr2 env2 _ key ttl2 tmo mw mex2 v3 e4
          hfalsy hlock2 hpost2 h3 h4]
      · by_cases h6 : ttl2 = 0
        · subst h6
          rw [memoize_eval_nostore env2 _ key tmo mw mex2 v3 v4
            hfalsy hlock2 hpost2 h3 h4]
        · rcases h5 : env2.putOutcome with e5 | u5
          · rw [memoize_eval_putfail env2 _ key ttl2 tmo mw mex2 v3 v4 e5
              hfalsy hlock2 hpost2 h3 h4 h5 h6]
          · obtain ⟨⟩ := u5
            rw [memoize_eval_store env2 _ key ttl2 tmo mw mex2 v3 v4
              hfalsy hlock2 hpost2 h3 h4 h5 h6]
  · rcases h3 : executeUpToTime (mex2 * 1000) env2.deadlineFired
      (env2.funcOutcome 0) with e3 | v3
    · rw [memoize_fnErr1 env2 _ key ttl2 tmo mw mex2 e3
        hfalsy hlock2 hpost2 h3]
    · rcases h4 : env2.funcOutcome 1 with e4 | v4
      · rw [memoize_fnErr2 env2 _ key ttl2 tmo mw mex2 v3 e4
          hfalsy hlock2 hpost2 h3 h4]
      · by_cases h6 : ttl2 = 0
        · subst h6
          rw [memoize_eval_nostore env2 _ key tmo mw mex2 v3 v4
            hfalsy hlock2 hpost2 h3 h4]
        · rcases h5 : env2.putOutcome with e5 | u5
          · rw [memoize_eval_putfail env2 _ key ttl2 tmo mw mex2 v3 v4 e5
              hfalsy hlock2 hpost2 h3 h4 h5 h6]
          · obtain ⟨⟩ := u5
            rw [memoize_eval_store env2 _ key ttl2 tmo mw mex2 v3 v4
              hfalsy hlock2 hpost2 h3 h4 h5 h6]
  · rcases h3 : executeUpToTime (mex2 * 1000) env2.deadlineFired
      (env2.funcOutcome 0) with e3 | v3
    · rw [memoize_fnErr1 env2 _ key ttl2 tmo mw mex2 e3
        hfalsy hlock2 hpost2 h3]
      norm_num
    · rcases h4 : env2.funcOutcome 1 with e4 | v4
      · rw [memoize_fnErr2 env2 _ key ttl2 tmo mw mex2 v3 e4
          hfalsy hlock2 hpost2 h3 h4]
        norm_num
      · by_cases h6 : ttl2 = 0
        · subst h6
          rw [memoize_eval_nostore env2 _ key tmo mw mex2 v3 v4
            hfalsy hlock2 hpost2 h3 h4]
          norm_num
        · rcases h5 : env2.putOutcome with e5 | u5
          · rw [memoize_eval_putfail env2 _ key ttl2 tmo mw mex2 v3 v4 e5
              hfalsy hlock2 hpost2 h3 h4 h5 h6]
            norm_num
          · obtain ⟨⟩ := u5
            rw [memoize_eval_store env2 _ key ttl2 tmo mw mex2 v3 v4
              hfalsy hlock2 hpost2 h3 h4 h5 h6]
            norm_num

/-- C10 witness: a computation returning the falsy 0 yields 0 to the
caller, the 0 is in the store, yet the following call re-acquires the lock
and reruns its computation. -/
theorem memoize_falsy_never_cached_witness :
    (memoize envFalsy [] "k" 300 10 30 0).result = .ok (.vNum 0) ∧
    storeGet ((memoize envFalsy [] "k" 300 10 30 0).finalStore) ("k" ++ "-value")
      = some (.vNum 0) ∧
    truthyVal (clientGet ((memoize envFalsy [] "k" 300 10 30 0).finalStore)
      ("k" ++ "-value")) = none ∧
    (memoize envFalsy ((memoize envFalsy [] "k" 300 10 30 0).finalStore) "k"
      300 10 30 0).lockRequested = some ("k" ++ "-lock", 10, 30) ∧
    (memoize envFalsy ((memoize envFalsy [] "k" 300 10 30 0).finalStore) "k"
      300 10 30 0).lockAcquired = true ∧
    0 < (memoize envFalsy ((memoize envFalsy [] "k" 300 10 30 0).finalStore) "k"
      300 10 30 0).funcCalls :=
  memoize_falsy_never_cached envFalsy envFalsy [] "k" 300 300 10 30 0 0
    (.vNum 0) (.vNum 0) rfl rfl rfl rfl rfl rfl rfl (by decide) rfl rfl

/-
Single-flight: invariant lemmas for the interleaving model.
-/

lemma holdsLock_start : ¬ HoldsLock .pcStart := by simp [HoldsLock]

lemma holdsLock_wait : ¬ HoldsLock .pcWait := by simp [HoldsLock]

lemma holdsLock_done (v : JsValue) : ¬ HoldsLock (.pcDone v) := by
  simp [HoldsLock]

lemma holdsLock_postCheck : HoldsLock .pcPostCheck := Or.inl rfl

lemma holdsLock_compute : HoldsLock .pcCompute := Or.inr (Or.inl rfl)

lemma holdsLock_write (v : JsValue) : HoldsLock (.pcWrite v) :=
  Or.inr (Or.inr (Or.inl ⟨v, rfl⟩))

lemma holdsLock_release (v : JsValue) : HoldsLock (.pcRelease v) :=
  Or.inr (Or.inr (Or.inr ⟨v, rfl⟩))

lemma sfInv_init (N : Nat) (funcs : Fin N → JsValue) :
    SFInv funcs (cInit N) := by
  refine ⟨?_, ?_, ?_, ?_, ?_, ?_, ?_, ?_, ?_⟩ <;>
    simp [cInit, HoldsLock]

/-- If every computation result is truthy, an untruthy store is an absent
store. -/
lemma sfInv_store_none {N : Nat} {funcs : Fin N → JsValue}
    (hT : ∀ i, jsTruthy (funcs i) = true) {s : CState N}
    (hinv : SFInv funcs s) (hs : truthyVal s.store = none) :
    s.store = none := by
  rcases h : s.store with _ | v
  · rfl
  · obtain ⟨w, -, rfl⟩ := hinv.storeVal v h
    rw [h] at hs
    simp [truthyVal, hT w] at hs

/-- One step preserves the invariant. -/
lemma sfInv_step {N : Nat} {funcs : Fin N → JsValue}
    (hT : ∀ i, jsTruthy (funcs i) = true) {s t : CState N}
    (hinv : SFInv funcs s) (hstep : MStep funcs s t) :
    SFInv funcs t := by
  obtain ⟨L, P, SV, WS, CS, WR, RL, DN, CN⟩ := hinv
  cases hstep with
  | preHit i v hp hs ht =>
    refine ⟨?_, ?_, ?_, ?_, ?_, ?_, ?_, ?_, ?_⟩
    · intro j hj
      have hj2 : s.holder = some j := hj
      have hLj := L j hj2
      show HoldsLock (Function.update s.procs i (.pcDone v) j)
      by_cases hji : j = i
      · subst hji; rw [hp] at hLj; exact absurd hLj holdsLock_start
      · rw [Function.update_noteq hji]; exact hLj
    · intro j hLj
      have hLj2 : HoldsLock (Function.update s.procs i (.pcDone v) j) := hLj
      show s.holder = some j
      by_cases hji : j = i
      · subst hji; rw [Function.update_same] at hLj2
        exact absurd hLj2 (holdsLock_done v)
      · rw [Function.update_noteq hji] at hLj2; exact P j hLj2
    · intro v2 hv2
      exact SV v2 hv2
    · intro w hw
      have hw2 : s.winner = some w := hw
      rcases WS w hw2 with hst | hpw
      · left; exact hst
      · right
        show Function.update s.procs i (.pcDone v) w = .pcWrite (funcs w)
        have hwi : w ≠ i := by
          intro h; rw [h, hp] at hpw; exact PState.noConfusion hpw
        rw [Function.update_noteq hwi]; exact hpw
    · intro j hj
      have hj2 : Function.update s.procs i (.pcDone v) j = .pcCompute := hj
      by_cases hji : j = i
      · subst hji; rw [Function.update_same] at hj2
        exact PState.noConfusion hj2
      · rw [Function.update_noteq hji] at hj2; exact CS j hj2
    · intro j v2 hj
      have hj2 : Function.update s.procs i (.pcDone v) j = .pcWrite v2 := hj
      by_cases hji : j = i
      · subst hji; rw [Function.update_same] at hj2
        exact PState.noConfusion hj2
      · rw [Function.update_noteq hji] at hj2; exact WR j v2 hj2
    · intro j v2 hj
      have hj2 : Function.update s.procs i (.pcDone v) j = .pcRelease v2 := hj
      by_cases hji : j = i
      · subst hji; rw [Function.update_same] at hj2
        exact PState.noConfusion hj2
      · rw [Function.update_noteq hji] at hj2; exact RL j v2 hj2
    · intro j v2 hj
      have hj2 : Function.update s.procs i (.pcDone v) j = .pcDone v2 := hj
      by_cases hji : j = i
      · subst hji; rw [Function.update_same] at hj2
        injection hj2 with hvv
        obtain ⟨w, hw, hwv⟩ := SV v hs
        exact ⟨w, hw, by rw [← hvv]; exact hwv⟩
      · rw [Function.update_noteq hji] at hj2; exact DN j v2 hj2
    · exact CN
  | preMiss i hp hs =>
    refine ⟨?_, ?_, ?_, ?_, ?_, ?_, ?_, ?_, ?_⟩
    · intro j hj
      have hLj := L j hj
      show HoldsLock (Function.update s.procs i .pcWait j)
      by_cases hji : j = i
      · subst hji; rw [hp] at hLj; exact absurd hLj holdsLock_start
      · rw [Function.update_noteq hji]; exact hLj
    · intro j hLj
      have hLj2 : HoldsLock (Function.update s.procs i .pcWait j) := hLj
      show s.holder = some j
      by_cases hji : j = i
      · subst hji; rw [Function.update_same] at hLj2
        exact absurd hLj2 holdsLock_wait
      · rw [Function.update_noteq hji] at hLj2; exact P j hLj2
    · intro v2 hv2
      exact SV v2 hv2
    · intro w hw
      rcases WS w hw with hst | hpw
      · left; exact hst
      · right
        show Function.update s.procs i .pcWait w = .pcWrite (funcs w)
        have hwi : w ≠ i := by
          intro h; rw [h, hp] at hpw; exact PState.noConfusion hpw
        rw [Function.update_noteq hwi]; exact hpw
    · intro j hj
      have hj2 : Function.update s.procs i .pcWait j = .pcCompute := hj
      by_cases hji : j = i
      · subst hji; rw [Function.update_same] at hj2
        exact PState.noConfusion hj2
      · rw [Function.update_noteq hji] at hj2; exact CS j hj2
    · intro j v2 hj
      have hj2 : Function.update s.procs i .pcWait j = .pcWrite v2 := hj
      by_cases hji : j = i
      · subst hji; rw [Function.update_same] at hj2
        exact PState.noConfusion hj2
      · rw [Function.update_noteq hji] at hj2; exact WR j v2 hj2
    · intro j v2 hj
      have hj2 : Function.update s.procs i .pcWait j = .pcRelease v2 := hj
      by_cases hji : j = i
      · subst hji; rw [Function.update_same] at hj2
        exact PState.noConfusion hj2
      · rw [Function.update_noteq hji] at hj2; exact RL j v2 hj2
    · intro j v2 hj
      have hj2 : Function.update s.procs i .pcWait j = .pcDone v2 := hj
      by_cases hji : j = i
      · subst hji; rw [Function.update_same] at hj2
        exact PState.noConfusion hj2
      · rw [Function.update_noteq hji] at hj2; exact DN j v2 hj2
    · exact CN
  | acquire i hp hl =>
    refine ⟨?_, ?_, ?_, ?_, ?_, ?_, ?_, ?_, ?_⟩
    · intro j hj
      have hj2 : some i = some j := hj
      injection hj2 with hij
      subst hij
      show HoldsLock (Function.update s.procs i .pcPostCheck i)
      rw [Function.update_same]
      exact holdsLock_postCheck
    · intro j hLj
      have hLj2 : HoldsLock (Function.update s.procs i .pcPostCheck j) := hLj
      show some i = some j
      by_cases hji : j = i
      · subst hji; rfl
      · rw [Function.update_noteq hji] at hLj2
        have := P j hLj2
        rw [hl] at this
        exact Option.noConfusion this
    · intro v2 hv2
      exact SV v2 hv2
    · intro w hw
      rcases WS w hw with hst | hpw
      · left; exact hst
      · right
        show Function.update s.procs i .pcPostCheck w = .pcWrite (funcs w)
        have hwi : w ≠ i := by
          intro h; rw [h, hp] at hpw; exact PState.noConfusion hpw
        rw [Function.update_noteq hwi]; exact hpw
    · intro j hj
      have hj2 : Function.update s.procs i .pcPostCheck j = .pcCompute := hj
      by_cases hji : j = i
      · subst hji; rw [Function.update_same] at hj2
        exact PState.noConfusion hj2
      · rw [Function.update_noteq hji] at hj2; exact CS j hj2
    · intro j v2 hj
      have hj2 : Function.update s.procs i .pcPostCheck j = .pcWrite v2 := hj
      by_cases hji : j = i
      · subst hji; rw [Function.update_same] at hj2
        exact PState.noConfusion hj2
      · rw [Function.update_noteq hji] at hj2; exact WR j v2 hj2
    · intro j v2 hj
      have hj2 : Function.update s.procs i .pcPostCheck j = .pcRelease v2 := hj
      by_cases hji : j = i
      · subst hji; rw [Function.update_same] at hj2
        exact PState.noConfusion hj2
      · rw [Function.update_noteq hji] at hj2; exact RL j v2 hj2
    · intro j v2 hj
      have hj2 : Function.update s.procs i .pcPostCheck j = .pcDone v2 := hj
      by_cases hji : j = i
      · subst hji; rw [Function.update_same] at hj2
        exact PState.noConfusion hj2
      · rw [Function.update_noteq hji] at hj2; exact DN j v2 hj2
    · exact CN
  | postHit i v hp hs ht =>
    refine ⟨?_, ?_, ?_, ?_, ?_, ?_, ?_, ?_, ?_⟩
    · intro j hj
      have hLj := L j hj
      show HoldsLock (Function.update s.procs i (.pcRelease v) j)
      by_cases hji : j = i
      · subst hji; rw [Function.update_same]; exact holdsLock_release v
      · rw [Function.update_noteq hji]; exact hLj
    · intro j hLj
      have hLj2 : HoldsLock (Function.update s.procs i (.pcRelease v) j) := hLj
      show s.holder = some j
      by_cases hji : j = i
      · subst hji; exact P j (hp ▸ holdsLock_postCheck)
      · rw [Function.update_noteq hji] at hLj2; exact P j hLj2
    · intro v2 hv2
      exact SV v2 hv2
    · intro w hw
      rcases WS w hw with hst | hpw
      · left; exact hst
      · right
        show Function.update s.procs i (.pcRelease v) w = .pcWrite (funcs w)
        have hwi : w ≠ i := by
          intro h; rw [h, hp] at hpw; exact PState.noConfusion hpw
        rw [Function.update_noteq hwi]; exact hpw
    · intro j hj
      have hj2 : Function.update s.procs i (.pcRelease v) j = .pcCompute := hj
      by_cases hji : j = i
      · subst hji; rw [Function.update_same] at hj2
        exact PState.noConfusion hj2
      · rw [Function.update_noteq hji] at hj2; exact CS j hj2
    · intro j v2 hj
      have hj2 : Function.update s.procs i (.pcRelease v) j = .pcWrite v2 := hj
      by_cases hji : j = i
      · subst hji; rw [Function.update_same] at hj2
        exact PState.noConfusion hj2
      · rw [Function.update_noteq hji] at hj2; exact WR j v2 hj2
    · intro j v2 hj
      have hj2 : Function.update s.procs i (.pcRelease v) j = .pcRelease v2 := hj
      by_cases hji : j = i
      · subst hji; rw [Function.update_same] at hj2
        injection hj2 with hvv
        show s.store = some v2
        rw [← hvv]; exact hs
      · rw [Function.update_noteq hji] at hj2; exact RL j v2 hj2
    · intro j v2 hj
      have hj2 : Function.update s.procs i (.pcRelease v) j = .pcDone v2 := hj
      by_cases hji : j = i
      · subst hji; rw [Function.update_same] at hj2
        exact PState.noConfusion hj2
      · rw [Function.update_noteq hji] at hj2; exact DN j v2 hj2
    · exact CN
  | postMiss i hp hs =>
    have hstoreNone : s.store = none :=
      sfInv_store_none hT ⟨L, P, SV, WS, CS, WR, RL, DN, CN⟩ hs
    have hwinNone : s.winner = none := by
      rcases h : s.winner with _ | w
      · rfl
      · rcases WS w h with hst | hpw
        · rw [hstoreNone] at hst; exact Option.noConfusion hst
        · have h1 := P w (hpw ▸ holdsLock_write (funcs w))
          have h2 := P i (hp ▸ holdsLock_postCheck)
          rw [h2] at h1
          injection h1 with h3
          subst h3
          rw [hp] at hpw
          exact PState.noConfusion hpw
    refine ⟨?_, ?_, ?_, ?_, ?_, ?_, ?_, ?_, ?_⟩
    · intro j hj
      have hLj := L j hj
      show HoldsLock (Function.update s.procs i .pcCompute j)
      by_cases hji : j = i
      · subst hji; rw [Function.update_same]; exact holdsLock_compute
      · rw [Function.update_noteq hji]; exact hLj
    · intro j hLj
      have hLj2 : HoldsLock (Function.update s.procs i .pcCompute j) := hLj
      show s.holder = some j
      by_cases hji : j = i
      · subst hji; exact P j (hp ▸ holdsLock_postCheck)
      · rw [Function.update_noteq hji] at hLj2; exact P j hLj2
    · intro v2 hv2
      exact SV v2 hv2
    · intro w hw
      have hw2 : s.winner = some w := hw
      rw [hwinNone] at hw2
      exact Option.noConfusion hw2
    · intro j hj
      have hj2 : Function.update s.procs i .pcCompute j = .pcCompute := hj
      exact ⟨hstoreNone, hwinNone⟩
    · intro j v2 hj
      have hj2 : Function.update s.procs i .pcCompute j = .pcWrite v2 := hj
      by_cases hji : j = i
      · subst hji; rw [Function.update_same] at hj2
        exact PState.noConfusion hj2
      · rw [Function.update_noteq hji] at hj2; exact WR j v2 hj2
    · intro j v2 hj
      have hj2 : Function.update s.procs i .pcCompute j = .pcRelease v2 := hj
      by_cases hji : j = i
      · subst hji; rw [Function.update_same] at hj2
        exact PState.noConfusion hj2
      · rw [Function.update_noteq hji] at hj2; exact RL j v2 hj2
    · intro j v2 hj
      have hj2 : Function.update s.procs i .pcCompute j = .pcDone v2 := hj
      by_cases hji : j = i
      · subst hji; rw [Function.update_same] at hj2
        exact PState.noConfusion hj2
      · rw [Function.update_noteq hji] at hj2; exact DN j v2 hj2
    · exact CN
  | exec i hp =>
    obtain ⟨hstoreNone, hwinNone⟩ := CS i hp
    have hexec0 : s.execCount = 0 := by
      rcases CN with ⟨-, h0⟩ | ⟨w, hw, -⟩
      · exact h0
      · rw [hwinNone] at hw; exact Option.noConfusion hw
    refine ⟨?_, ?_, ?_, ?_, ?_, ?_, ?_, ?_, ?_⟩
    · intro j hj
      have hLj := L j hj
      show HoldsLock (Function.update s.procs i (.pcWrite (funcs i)) j)
      by_cases hji : j = i
      · subst hji; rw [Function.update_same]; exact holdsLock_write _
      · rw [Function.update_noteq hji]; exact hLj
    · intro j hLj
      have hLj2 : HoldsLock (Function.update s.procs i (.pcWrite (funcs i)) j) :=
        hLj
      show s.holder = some j
      by_cases hji : j = i
      · subst hji; exact P j (hp ▸ holdsLock_compute)
      · rw [Function.update_noteq hji] at hLj2; exact P j hLj2
    · intro v2 hv2
      have hv3 : s.store = some v2 := hv2
      rw [hstoreNone] at hv3
      exact Option.noConfusion hv3
    · intro w hw
      have hw2 : some i = some w := hw
      injection hw2 with hiw
      right
      show Function.update s.procs i (.pcWrite (funcs i)) w = .pcWrite (funcs w)
      rw [← hiw, Function.update_same]
    · intro j hj
      have hj2 : Function.update s.procs i (.pcWrite (funcs i)) j = .pcCompute :=
        hj
      by_cases hji : j = i
      · subst hji; rw [Function.update_same] at hj2
        exact PState.noConfusion hj2
      · rw [Function.update_noteq hji] at hj2
        have h1 := P j (hj2 ▸ holdsLock_compute)
        have h2 := P i (hp ▸ holdsLock_compute)
        rw [h2] at h1
        injection h1 with h3
        exact absurd h3.symm hji
    · intro j v2 hj
      have hj2 : Function.update s.procs i (.pcWrite (funcs i)) j = .pcWrite v2 :=
        hj
      by_cases hji : j = i
      · subst hji; rw [Function.update_same] at hj2
        injection hj2 with hvv
        exact ⟨hvv.symm, rfl, hstoreNone⟩
      · rw [Function.update_noteq hji] at hj2
        obtain ⟨-, hw, -⟩ := WR j v2 hj2
        rw [hwinNone] at hw
        exact Option.noConfusion hw
    · intro j v2 hj
      have hj2 : Function.update s.procs i (.pcWrite (funcs i)) j = .pcRelease v2 :=
        hj
      by_cases hji : j = i
      · subst hji; rw [Function.update_same] at hj2
        exact PState.noConfusion hj2
      · rw [Function.update_noteq hji] at hj2
        exact RL j v2 hj2
    · intro j v2 hj
      have hj2 : Function.update s.procs i (.pcWrite (funcs i)) j = .pcDone v2 :=
        hj
      by_cases hji : j = i
      · subst hji; rw [Function.update_same] at hj2
        exact PState.noConfusion hj2
      · rw [Function.update_noteq hji] at hj2
        obtain ⟨w, hw, -⟩ := DN j v2 hj2
        rw [hwinNone] at hw
        exact Option.noConfusion hw
    · right
      refine ⟨i, rfl, ?_⟩
      show s.execCount + 1 = 1
      rw [hexec0]
  | write i v hp =>
    obtain ⟨hveq, hwin, hstoreNone⟩ := WR i v hp
    refine ⟨?_, ?_, ?_, ?_, ?_, ?_, ?_, ?_, ?_⟩
    · intro j hj
      have hLj := L j hj
      show HoldsLock (Function.update s.procs i (.pcRelease v) j)
      by_cases hji : j = i
      · subst hji; rw [Function.update_same]; exact holdsLock_release v
      · rw [Function.update_noteq hji]; exact hLj
    · intro j hLj
      have hLj2 : HoldsLock (Function.update s.procs i (.pcRelease v) j) := hLj
      show s.holder = some j
      by_cases hji : j = i
      · subst hji; exact P j (hp ▸ holdsLock_write v)
      · rw [Function.update_noteq hji] at hLj2; exact P j hLj2
    · intro v2 hv2
      have hv3 : some v = some v2 := hv2
      injection hv3 with hvv
      refine ⟨i, hwin, ?_⟩
      rw [← hvv, hveq]
    · intro w hw
      have hw2 : s.winner = some w := hw
      rw [hwin] at hw2
      injection hw2 with hiw
      left
      show some v = some (funcs w)
      rw [hveq, hiw]
    · intro j hj
      have hj2 : Function.update s.procs i (.pcRelease v) j = .pcCompute := hj
      by_cases hji : j = i
      · subst hji; rw [Function.update_same] at hj2
        exact PState.noConfusion hj2
      · rw [Function.update_noteq hji] at hj2
        have h1 := P j (hj2 ▸ holdsLock_compute)
        have h2 := P i (hp ▸ holdsLock_write v)
        rw [h2] at h1
        injection h1 with h3
        exact absurd h3.symm hji
    · intro j v2 hj
      have hj2 : Function.update s.procs i (.pcRelease v) j = .pcWrite v2 := hj
      by_cases hji : j = i
      · subst hji; rw [Function.update_same] at hj2
        exact PState.noConfusion hj2
      · rw [Function.update_noteq hji] at hj2
        obtain ⟨-, hw, -⟩ := WR j v2 hj2
        rw [hwin] at hw
        injection hw with hiw
        exact absurd hiw.symm hji
    · intro j v2 hj
      have hj2 : Function.update s.procs i (.pcRelease v) j = .pcRelease v2 := hj
      by_cases hji : j = i
      · subst hji; rw [Function.update_same] at hj2
        injection hj2 with hvv
        show some v = some v2
        rw [hvv]
      · rw [Function.update_noteq hji] at hj2
        have := RL j v2 hj2
        rw [hstoreNone] at this
        exact Option.noConfusion this
    · intro j v2 hj
      have hj2 : Function.update s.procs i (.pcRelease v) j = .pcDone v2 := hj
      by_cases hji : j = i
      · subst hji; rw [Function.update_same] at hj2
        exact PState.noConfusion hj2
      · rw [Function.update_noteq hji] at hj2
        exact DN j v2 hj2
    · exact CN
  | release i v hp =>
    have hstore : s.store = some v := RL i v hp
    obtain ⟨w, hw, hveq⟩ := SV v hstore
    refine ⟨?_, ?_, ?_, ?_, ?_, ?_, ?_, ?_, ?_⟩
    · intro j hj
      have hj2 : (none : Option (Fin N)) = some j := hj
      exact Option.noConfusion hj2
    · intro j hLj
      have hLj2 : HoldsLock (Function.update s.procs i (.pcDone v) j) := hLj
      by_cases hji : j = i
      · subst hji; rw [Function.update_same] at hLj2
        exact absurd hLj2 (holdsLock_done v)
      · rw [Function.update_noteq hji] at hLj2
        have h1 := P j hLj2
        have h2 := P i (hp ▸ holdsLock_release v)
        rw [h2] at h1
        injection h1 with h3
        exact absurd h3.symm hji
    · intro v2 hv2
      exact SV v2 hv2
    · intro w2 hw2
      rcases WS w2 hw2 with hst | hpw
      · left; exact hst
      · have h1 := P w2 (hpw ▸ holdsLock_write (funcs w2))
        have h2 := P i (hp ▸ holdsLock_release v)
        rw [h2] at h1
        injection h1 with h3
        subst h3
        rw [hp] at hpw
        exact PState.noConfusion hpw
    · intro j hj
      have hj2 : Function.update s.procs i (.pcDone v) j = .pcCompute := hj
      by_cases hji : j = i
      · subst hji; rw [Function.update_same] at hj2
        exact PState.noConfusion hj2
      · rw [Function.update_noteq hji] at hj2
        obtain ⟨hs0, -⟩ := CS j hj2
        rw [hstore] at hs0
        exact Option.noConfusion hs0
    · intro j v2 hj
      have hj2 : Function.update s.procs i (.pcDone v) j = .pcWrite v2 := hj
      by_cases hji : j = i
      · subst hji; rw [Function.update_same] at hj2
        exact PState.noConfusion hj2
      · rw [Function.update_noteq hji] at hj2
        obtain ⟨-, -, hs0⟩ := WR j v2 hj2
        rw [hstore] at hs0
        exact Option.noConfusion hs0
    · intro j v2 hj
      have hj2 : Function.update s.procs i (.pcDone v) j = .pcRelease v2 := hj
      by_cases hji : j = i
      · subst hji; rw [Function.update_same] at hj2
        exact PState.noConfusion hj2
      · rw [Function.update_noteq hji] at hj2
        exact RL j v2 hj2
    · intro j v2 hj
      have hj2 : Function.update s.procs i (.pcDone v) j = .pcDone v2 := hj
      by_cases hji : j = i
      · subst hji; rw [Function.update_same] at hj2
        injection hj2 with hvv
        exact ⟨w, hw, by rw [← hvv]; exact hveq⟩
      · rw [Function.update_noteq hji] at hj2
        exact DN j v2 hj2
    · exact CN

/-- Any number of steps preserves the invariant. -/
lemma sfInv_steps {N : Nat} {funcs : Fin N → JsValue}
    (hT : ∀ i, jsTruthy (funcs i) = true) {s t : CState N}
    (hinv : SFInv funcs s) (hrun : MSteps funcs s t) :
    SFInv funcs t := by
  induction hrun with
  | refl => exact hinv
  | tail h1 h2 ih => exact sfInv_step hT ih h2

/-- C2 counterexample: the single-flight guarantee fails for computations
with falsy results, which the claim's quantification over arbitrary
user-supplied computations includes.  With two concurrent callers whose
computations both produce the falsy 0, the interleaving model (nonzero
ttl, one cache generation, every caller completing) admits the complete
run sfA, sfB, sfC, sg4, ..., sg12 in which the computation runs twice:
caller 0's 0 is written to valueKey, but caller 1's pre-lock and
post-lock reads treat it as absent, so caller 1 re-acquires the lock and
recomputes, making the side effect occur twice, not exactly once. -/
theorem memoize_single_flight_cex :
    (2 ≤ 2) ∧
    MSteps funcsFalsy (cInit 2) sg12 ∧
    (∀ i, ∃ v, sg12.procs i = .pcDone v) ∧
    sg12.execCount = 2 := by
  have h1 : MStep funcsFalsy (cInit 2) sfA := MStep.preMiss 0 rfl rfl
  have h2 : MStep funcsFalsy sfA sfB := MStep.acquire 0 rfl rfl
  have h3 : MStep funcsFalsy sfB sfC := MStep.postMiss 0 rfl rfl
  have h4 : MStep funcsFalsy sfC sg4 := MStep.exec 0 rfl
  have h5 : MStep funcsFalsy sg4 sg5 := MStep.write 0 (funcsFalsy 0) rfl
  have h6 : MStep funcsFalsy sg5 sg6 := MStep.release 0 (funcsFalsy 0) rfl
  have h7 : MStep funcsFalsy sg6 sg7 := MStep.preMiss 1 rfl rfl
  have h8 : MStep funcsFalsy sg7 sg8 := MStep.acquire 1 rfl rfl
  have h9 : MStep funcsFalsy sg8 sg9 := MStep.postMiss 1 rfl rfl
  have h10 : MStep funcsFalsy sg9 sg10 := MStep.exec 1 rfl
  have h11 : MStep funcsFalsy sg10 sg11 := MStep.write 1 (funcsFalsy 1) rfl
  have h12 : MStep funcsFalsy sg11 sg12 := MStep.release 1 (funcsFalsy 1) rfl
  have hrun : MSteps funcsFalsy (cInit 2) sg12 :=
    Relation.ReflTransGen.head h1 (Relation.ReflTransGen.head h2
      (Relation.ReflTransGen.head h3 (Relation.ReflTransGen.head h4
        (Relation.ReflTransGen.head h5 (Relation.ReflTransGen.head h6
          (Relation.ReflTransGen.head h7 (Relation.ReflTransGen.head h8
            (Relation.ReflTransGen.head h9 (Relation.ReflTransGen.head h10
              (Relation.ReflTransGen.head h11 (Relation.ReflTransGen.head h12
                Relation.ReflTransGen.refl)))))))))))
  refine ⟨by decide, hrun, ?_, rfl⟩
  intro i
  fin_cases i <;> exact ⟨.vNum 0, by decide⟩

/-- C2 amended: for N concurrent memoize callers sharing one key (nonzero
ttl, one cache generation) whose computations all produce truthy results,
any interleaving that runs from the empty initial state to a state where
every caller has returned executed the computation exactly once (its side
effect, counted by execCount, occurred exactly once), and every caller
returned the single value computed by the winning caller.  The truthiness
restriction is necessary: for falsy results the guarantee fails, see the
counterexample above. -/
theorem memoize_single_flight (N : Nat) (hN : 2 ≤ N)
    (funcs : Fin N → JsValue) (hT : ∀ i, jsTruthy (funcs i) = true)
    (t : CState N) (hrun : MSteps funcs (cInit N) t)
    (hdone : ∀ i, ∃ v, t.procs i = .pcDone v) :
    t.execCount = 1 ∧
    ∃ w, t.winner = some w ∧
      ∀ i v, t.procs i = .pcDone v → v = funcs w := by
  have hinv := sfInv_steps hT (sfInv_init N funcs) hrun
  have h0 : (0 : Nat) < N := Nat.lt_of_lt_of_le (by decide) hN
  obtain ⟨v0, hv0⟩ := hdone ⟨0, h0⟩
  obtain ⟨w, hw, -⟩ := hinv.doneSt ⟨0, h0⟩ v0 hv0
  have hcnt : t.execCount = 1 := by
    rcases hinv.cntSt with ⟨hwn, -⟩ | ⟨w2, -, h1⟩
    · rw [hwn] at hw; exact Option.noConfusion hw
    · exact h1
  refine ⟨hcnt, w, hw, ?_⟩
  intro i v hv
  obtain ⟨w2, hw2, hveq⟩ := hinv.doneSt i v hv
  rw [hw] at hw2
  injection hw2 with hww
  rw [hveq, hww]

/-- C2 witness: an explicit complete interleaving of two callers in which
caller 0 computes, writes and releases, and caller 1 then reads the
cached value: the computation ran once and both callers returned 1. -/
theorem memoize_single_flight_witness :
    sfG.execCount = 1 ∧
    ∃ w, sfG.winner = some w ∧
      ∀ i v, sfG.procs i = .pcDone v → v = funcsPair w := by
  have h1 : MStep funcsPair (cInit 2) sfA := MStep.preMiss 0 rfl rfl
  have h2 : MStep funcsPair sfA sfB := MStep.acquire 0 rfl rfl
  have h3 : MStep funcsPair sfB sfC := MStep.postMiss 0 rfl rfl
  have h4 : MStep funcsPair sfC sfD := MStep.exec 0 rfl
  have h5 : MStep funcsPair sfD sfE := MStep.write 0 (funcsPair 0) rfl
  have h6 : MStep funcsPair sfE sfF := MStep.release 0 (funcsPair 0) rfl
  have h7 : MStep funcsPair sfF sfG := MStep.preHit 1 (.vNum 1) rfl rfl rfl
  have hrun : MSteps funcsPair (cInit 2) sfG :=
    Relation.ReflTransGen.head h1 (Relation.ReflTransGen.head h2
      (Relation.ReflTransGen.head h3 (Relation.ReflTransGen.head h4
        (Relation.ReflTransGen.head h5 (Relation.ReflTransGen.head h6
          (Relation.ReflTransGen.head h7 Relation.ReflTransGen.refl))))))
  exact memoize_single_flight 2 (by decide) funcsPair
    (by intro i; fin_cases i <;> decide) sfG hrun
    (by intro i; fin_cases i <;> exact ⟨.vNum 1, by decide⟩)

end ConfiguredEtcd3Client
